import Mathlib

/-!
Verification of the collaborative state-synchronization core of the
evil_chat_server repository: the DAW operation-log submission coordinator
(src/routes/projects.ts, POST /:projectId/daw/ops), the connection-counting
presence registry and the voice-session tracker
(src/websocket/socketHandlers.ts), over a shallow embedding.

All state is per document (the project_ops / project_snapshot tables are
keyed by project_id; rows of distinct projects never interact, so one
DocState models one project), per server room, or per voice channel.
Opaque JSON payloads are modelled as natural numbers.
-/

namespace EvilChat

/-! ## DAW operation log: data model

project_ops rows carry (version_int, op_json); project_snapshot carries
version_int. The op_json payload is opaque to the handler and modelled
as a Nat.
-/

/-- One row of the project_ops table (for a fixed project). -/
structure OpRow where
  version_int : Nat
  op_json : Nat
deriving DecidableEq, Repr

/-- The durable state of one project: its project_ops rows (in insertion
order) and the version_int column of its project_snapshot row. -/
structure DocState where
  ops : List OpRow
  snapshotVersion : Nat
deriving DecidableEq, Repr

/-- The initial state of a freshly created project: an empty operation log
and a snapshot at version 0 (projects.ts creates the snapshot with
version_int 0 in the same transaction as the project row). -/
def initialDocState : DocState := { ops := [], snapshotVersion := 0 }

/-- SELECT MAX(version_int) over the project_ops rows, with SQL NULL (empty
table) read back as 0, exactly as the handler does. -/
def maxVersionInt (rows : List OpRow) : Nat :=
  rows.foldl (fun acc r => max acc r.version_int) 0

/-- The handler's sanity clamp on the derived version (projects.ts lines
257-262): a max version above 1,000,000 is treated as corrupted and
replaced by 0. -/
def clampVersion (v : Nat) : Nat :=
  if v > 1000000 then 0 else v

/-- The rows the handler builds for insertion (projects.ts lines 281-288):
the operation at batch index idx is given version currentVersion + idx + 1. -/
def opsToInsert (currentVersion : Nat) (ops : List Nat) : List OpRow :=
  ops.enum.map (fun p => OpRow.mk (currentVersion + p.1 + 1) p.2)

/-- Outcome of a POST /:projectId/daw/ops request. ok carries the JSON
body of the 200 response; versionConflict carries serverVersion and
clientBaseVersion of the 409 body; projectNotFound is the 404. The
request body schema allows any integer baseVersion, hence Int. -/
inductive SubmitResult where
  | ok (newVersion : Nat) (appliedCount : Nat)
  | versionConflict (serverVersion : Nat) (clientBaseVersion : Int)
  | projectNotFound
deriving DecidableEq, Repr

/-- The submit handler from the max-version read onward, for an existing
project. The handler suspends between reading the max version and
performing the insert, so a racing submission may commit in between:
stRead is the state the max-version read saw, stInsert the state the
INSERT (and, on duplicate key, the catch-block re-read) runs against.
The sequential, race-free call is submitOps st st.

Control flow mirrors projects.ts lines 232-339: derive currentVersion
(clamped), 409 if baseVersion is ahead, build opsToInsert, empty batch is
a no-op 200, a duplicate (project_id, version_int) key aborts the whole
insert and yields a 409 carrying a re-read (unclamped) max version,
otherwise all rows are appended and the snapshot version is updated. -/
def submitOps (stRead stInsert : DocState) (baseVersion : Int) (ops : List Nat) :
    SubmitResult × DocState :=
  let currentVersion := clampVersion (maxVersionInt stRead.ops)
  if baseVersion > (currentVersion : Int) then
    (SubmitResult.versionConflict currentVersion baseVersion, stInsert)
  else
    let rows := opsToInsert currentVersion ops
    if rows.length = 0 then
      (SubmitResult.ok currentVersion 0, stInsert)
    else if rows.any (fun r => stInsert.ops.any (fun e => e.version_int == r.version_int)) then
      (SubmitResult.versionConflict (maxVersionInt stInsert.ops) baseVersion, stInsert)
    else
      let newVersion := currentVersion + rows.length
      (SubmitResult.ok newVersion rows.length,
        { ops := stInsert.ops ++ rows, snapshotVersion := newVersion })

/-- A submit request against a store in which the project may be absent;
a missing project row yields the 404 branch before anything is read or
written. -/
def submitSeq (doc : Option DocState) (baseVersion : Int) (ops : List Nat) :
    SubmitResult × Option DocState :=
  match doc with
  | none => (SubmitResult.projectNotFound, none)
  | some st => ((submitOps st st baseVersion ops).1, some (submitOps st st baseVersion ops).2)

/-- One client call against the single document, as seen sequentially. -/
structure SubmitCall where
  baseVersion : Int
  ops : List Nat

/-- Run a sequence of submit calls against one document, threading the
store state through (failed calls leave the state unchanged). -/
def applySubmits (st : DocState) : List SubmitCall → DocState
  | [] => st
  | c :: rest => applySubmits (submitOps st st c.baseVersion c.ops).2 rest

/-! ## Basic lemmas about the version computations -/

theorem foldl_max_le {l : List Nat} {a : Nat} : a ≤ l.foldl max a := by
  induction l generalizing a with
  | nil => exact le_refl a
  | cons b tl ih => exact le_trans (le_max_left a b) ih

theorem mem_le_foldl_max {l : List Nat} {a x : Nat} (hx : x ∈ l) : x ≤ l.foldl max a := by
  induction l generalizing a with
  | nil => cases hx
  | cons b tl ih =>
    rcases List.mem_cons.mp hx with h | h
    · subst h
      exact le_trans (le_max_right a x) foldl_max_le
    · exact ih h

theorem maxVersionInt_eq_foldl (rows : List OpRow) :
    maxVersionInt rows = (rows.map (fun r => r.version_int)).foldl max 0 := by
  rw [List.foldl_map]
  rfl

theorem version_le_maxVersionInt {rows : List OpRow} {r : OpRow} (hr : r ∈ rows) :
    r.version_int ≤ maxVersionInt rows := by
  rw [maxVersionInt_eq_foldl]
  exact mem_le_foldl_max (List.mem_map_of_mem _ hr)

theorem foldl_max_range' (n : Nat) : ∀ a : Nat, (List.range' (a + 1) n).foldl max a = a + n := by
  induction n with
  | zero => intro a; rfl
  | succ m ih =>
    intro a
    show (List.range' (a + 1) (m + 1)).foldl max a = a + (m + 1)
    rw [List.range'_succ]
    show (List.range' (a + 1 + 1) m).foldl max (max a (a + 1)) = a + (m + 1)
    rw [Nat.max_eq_right (Nat.le_succ a)]
    rw [ih (a + 1)]
    omega

theorem clampVersion_le (v : Nat) : clampVersion v ≤ v := by
  unfold clampVersion
  split <;> omega

theorem clampVersion_of_le {v : Nat} (h : v ≤ 1000000) : clampVersion v = v := by
  unfold clampVersion
  split <;> omega

theorem clampVersion_of_gt {v : Nat} (h : 1000000 < v) : clampVersion v = 0 := by
  unfold clampVersion
  split <;> omega

theorem opsToInsert_aux (ops : List Nat) :
    ∀ n V : Nat,
      ((ops.enumFrom n).map (fun p => OpRow.mk (V + p.1 + 1) p.2)).map
          (fun r => r.version_int) =
        List.range' (V + n + 1) ops.length := by
  induction ops with
  | nil => intro n V; rfl
  | cons a tl ih =>
    intro n V
    show (V + n + 1) :: ((tl.enumFrom (n + 1)).map (fun p => OpRow.mk (V + p.1 + 1) p.2)).map
          (fun r => r.version_int) =
        List.range' (V + n + 1) (tl.length + 1)
    rw [List.range'_succ, ih (n + 1) V]
    have : V + (n + 1) + 1 = V + n + 1 + 1 := by omega
    rw [this]

theorem opsToInsert_map_version (V : Nat) (ops : List Nat) :
    (opsToInsert V ops).map (fun r => r.version_int) = List.range' (V + 1) ops.length := by
  have h := opsToInsert_aux ops 0 V
  simpa [opsToInsert, List.enum] using h

theorem opsToInsert_length (V : Nat) (ops : List Nat) :
    (opsToInsert V ops).length = ops.length := by
  have h := congrArg List.length (opsToInsert_map_version V ops)
  simpa using h

theorem opsToInsert_version_bounds {V : Nat} {ops : List Nat} {r : OpRow}
    (hr : r ∈ opsToInsert V ops) :
    V + 1 ≤ r.version_int ∧ r.version_int < V + 1 + ops.length := by
  have hmem : r.version_int ∈ (opsToInsert V ops).map (fun r => r.version_int) :=
    List.mem_map_of_mem _ hr
  rw [opsToInsert_map_version] at hmem
  exact List.mem_range'_1.mp hmem

/-! ## Branch equations for submitOps -/

theorem submitOps_conflict_ahead (stRead stInsert : DocState) (b : Int) (ops : List Nat)
    (h : ((clampVersion (maxVersionInt stRead.ops) : Nat) : Int) < b) :
    submitOps stRead stInsert b ops =
      (SubmitResult.versionConflict (clampVersion (maxVersionInt stRead.ops)) b, stInsert) := by
  simp only [submitOps]
  rw [if_pos h]

theorem submitOps_empty (stRead stInsert : DocState) (b : Int)
    (h : ¬ ((clampVersion (maxVersionInt stRead.ops) : Nat) : Int) < b) :
    submitOps stRead stInsert b [] =
      (SubmitResult.ok (clampVersion (maxVersionInt stRead.ops)) 0, stInsert) := by
  simp only [submitOps]
  rw [if_neg h]
  have hz : (opsToInsert (clampVersion (maxVersionInt stRead.ops)) []).length = 0 := rfl
  rw [if_pos hz]

theorem submitOps_dup (stRead stInsert : DocState) (b : Int) (ops : List Nat)
    (hb : ¬ ((clampVersion (maxVersionInt stRead.ops) : Nat) : Int) < b)
    (hne : ops ≠ [])
    (hdup : (opsToInsert (clampVersion (maxVersionInt stRead.ops)) ops).any
        (fun r => stInsert.ops.any (fun e => e.version_int == r.version_int)) = true) :
    submitOps stRead stInsert b ops =
      (SubmitResult.versionConflict (maxVersionInt stInsert.ops) b, stInsert) := by
  have hlen : ¬ (opsToInsert (clampVersion (maxVersionInt stRead.ops)) ops).length = 0 := by
    rw [opsToInsert_length]
    exact fun h0 => hne (List.length_eq_zero.mp h0)
  simp only [submitOps]
  rw [if_neg hb, if_neg hlen, if_pos hdup]

theorem submitOps_insert (stRead stInsert : DocState) (b : Int) (ops : List Nat)
    (hb : ¬ ((clampVersion (maxVersionInt stRead.ops) : Nat) : Int) < b)
    (hne : ops ≠ [])
    (hdup : (opsToInsert (clampVersion (maxVersionInt stRead.ops)) ops).any
        (fun r => stInsert.ops.any (fun e => e.version_int == r.version_int)) = false) :
    submitOps stRead stInsert b ops =
      (SubmitResult.ok (clampVersion (maxVersionInt stRead.ops) + ops.length) ops.length,
        { ops := stInsert.ops ++ opsToInsert (clampVersion (maxVersionInt stRead.ops)) ops,
          snapshotVersion := clampVersion (maxVersionInt stRead.ops) + ops.length }) := by
  have hlen : ¬ (opsToInsert (clampVersion (maxVersionInt stRead.ops)) ops).length = 0 := by
    rw [opsToInsert_length]
    exact fun h0 => hne (List.length_eq_zero.mp h0)
  have hdup' : ¬ ((opsToInsert (clampVersion (maxVersionInt stRead.ops)) ops).any
      (fun r => stInsert.ops.any (fun e => e.version_int == r.version_int)) = true) := by
    rw [hdup]; exact Bool.false_ne_true
  simp only [submitOps]
  rw [if_neg hb, if_neg hlen, if_neg hdup', opsToInsert_length]

/-! ## Duplicate-key detection lemmas -/

theorem dupCheck_false_of_le {st : List OpRow} {V : Nat} {ops : List Nat}
    (h : ∀ e ∈ st, e.version_int ≤ V) :
    (opsToInsert V ops).any (fun r => st.any (fun e => e.version_int == r.version_int)) = false := by
  rw [List.any_eq_false]
  intro r hr
  rw [Bool.not_eq_true, List.any_eq_false]
  intro e he
  have h1 := (opsToInsert_version_bounds hr).1
  have h2 := h e he
  simp only [Nat.beq_eq_true_eq] at *
  omega

theorem dupCheck_true_of_mem {st : List OpRow} {V : Nat} {ops : List Nat}
    (hne : ops ≠ []) (hmem : ∃ e ∈ st, e.version_int = V + 1) :
    (opsToInsert V ops).any (fun r => st.any (fun e => e.version_int == r.version_int)) = true := by
  have hpos : 0 < ops.length := List.length_pos.mpr hne
  have hv : V + 1 ∈ (opsToInsert V ops).map (fun r => r.version_int) := by
    rw [opsToInsert_map_version]
    exact List.mem_range'_1.mpr ⟨le_refl _, by omega⟩
  obtain ⟨r, hr, hrv⟩ := List.mem_map.mp hv
  rw [List.any_eq_true]
  refine ⟨r, hr, ?_⟩
  rw [List.any_eq_true]
  obtain ⟨e, he, hev⟩ := hmem
  exact ⟨e, he, by simp [hev, hrv]⟩

/-! ## The contiguity invariant (claim C1) -/

theorem contiguous_maxVersionInt {st : DocState}
    (h : st.ops.map (fun r => r.version_int) = List.range' 1 st.snapshotVersion) :
    maxVersionInt st.ops = st.snapshotVersion := by
  rw [maxVersionInt_eq_foldl, h]
  have hr := foldl_max_range' st.snapshotVersion 0
  simpa using hr

theorem contiguous_mem_one {st : DocState}
    (h : st.ops.map (fun r => r.version_int) = List.range' 1 st.snapshotVersion)
    (hV : 1 ≤ st.snapshotVersion) :
    ∃ e ∈ st.ops, e.version_int = 1 := by
  have h1 : (1 : Nat) ∈ st.ops.map (fun r => r.version_int) := by
    rw [h]
    exact List.mem_range'_1.mpr ⟨le_refl 1, by omega⟩
  obtain ⟨e, he, hev⟩ := List.mem_map.mp h1
  exact ⟨e, he, hev⟩

theorem submitOps_preserves_contiguous (st : DocState) (b : Int) (ops : List Nat)
    (h : st.ops.map (fun r => r.version_int) = List.range' 1 st.snapshotVersion) :
    (submitOps st st b ops).2.ops.map (fun r => r.version_int) =
      List.range' 1 (submitOps st st b ops).2.snapshotVersion := by
  have hmax : maxVersionInt st.ops = st.snapshotVersion := contiguous_maxVersionInt h
  by_cases hb : ((clampVersion (maxVersionInt st.ops) : Nat) : Int) < b
  · rw [submitOps_conflict_ahead st st b ops hb]
    exact h
  · cases ops with
    | nil =>
      rw [submitOps_empty st st b hb]
      exact h
    | cons a tl =>
      by_cases hcl : st.snapshotVersion ≤ 1000000
      · have hcv : clampVersion (maxVersionInt st.ops) = st.snapshotVersion := by
          rw [hmax]
          exact clampVersion_of_le hcl
        have hle : ∀ e ∈ st.ops, e.version_int ≤ clampVersion (maxVersionInt st.ops) := by
          intro e he
          rw [hcv, ← hmax]
          exact version_le_maxVersionInt he
        have hdup := @dupCheck_false_of_le _ _ (a :: tl) hle
        rw [submitOps_insert st st b (a :: tl) hb (by simp) hdup]
        show (st.ops ++ opsToInsert (clampVersion (maxVersionInt st.ops)) (a :: tl)).map
            (fun r => r.version_int) = _
        rw [List.map_append, h, opsToInsert_map_version, hcv]
        show List.range' 1 st.snapshotVersion ++
            List.range' (st.snapshotVersion + 1) (a :: tl).length =
          List.range' 1 (st.snapshotVersion + (a :: tl).length)
        have happ := List.range'_append_1 1 st.snapshotVersion (a :: tl).length
        rw [Nat.add_comm 1 st.snapshotVersion] at happ
        rw [happ, Nat.add_comm]
      · have hV : 1000000 < st.snapshotVersion := by omega
        have hcv : clampVersion (maxVersionInt st.ops) = 0 := by
          rw [hmax]
          exact clampVersion_of_gt hV
        have hmem : ∃ e ∈ st.ops, e.version_int = 0 + 1 := by
          simpa using contiguous_mem_one h (by omega)
        have hdup := @dupCheck_true_of_mem _ 0 (a :: tl) (by simp) hmem
        rw [submitOps_dup st st b (a :: tl) hb (by simp) (by rw [hcv]; exact hdup)]
        exact h

theorem applySubmits_contiguous (calls : List SubmitCall) :
    ∀ st : DocState,
      st.ops.map (fun r => r.version_int) = List.range' 1 st.snapshotVersion →
      (applySubmits st calls).ops.map (fun r => r.version_int) =
        List.range' 1 (applySubmits st calls).snapshotVersion := by
  induction calls with
  | nil => intro st h; exact h
  | cons c rest ih =>
    intro st h
    exact ih _ (submitOps_preserves_contiguous st c.baseVersion c.ops h)

/-- C1: starting from an empty operation log (snapshot version 0), after any
sequence of submit calls the stored operation versions for the document form
the duplicate-free contiguous range 1..V where V is the current snapshot
version. Failed calls do not change the store, so quantifying over all call
sequences covers every sequence of successful submissions. -/
theorem c1_versions_contiguous (calls : List SubmitCall) :
    ((applySubmits initialDocState calls).ops.map (fun r => r.version_int)).Nodup ∧
    ∀ v : Nat,
      v ∈ (applySubmits initialDocState calls).ops.map (fun r => r.version_int) ↔
        1 ≤ v ∧ v ≤ (applySubmits initialDocState calls).snapshotVersion := by
  have h := applySubmits_contiguous calls initialDocState rfl
  constructor
  · rw [h]
    exact List.nodup_range' 1 _
  · intro v
    rw [h, List.mem_range'_1]
    omega

/-! ## A reachable document state whose log is past the 1,000,000 clamp -/

theorem map_mk_version (c : Nat) (l : List Nat) :
    (l.map (fun v => OpRow.mk v c)).map (fun r => r.version_int) = l := by
  induction l with
  | nil => rfl
  | cons a tl ih =>
    show a :: (tl.map (fun v => OpRow.mk v c)).map (fun r => r.version_int) = a :: tl
    rw [ih]

/-- A document whose log holds the contiguous versions 1..1000001: one more
operation than the handler's sanity bound of 1,000,000. -/
def overflowedLog : DocState :=
  { ops := (List.range' 1 1000001).map (fun v => OpRow.mk v 0),
    snapshotVersion := 1000001 }

theorem overflowedLog_contiguous :
    overflowedLog.ops.map (fun r => r.version_int) =
      List.range' 1 overflowedLog.snapshotVersion :=
  map_mk_version 0 (List.range' 1 1000001)

theorem overflowedLog_max : maxVersionInt overflowedLog.ops = 1000001 :=
  contiguous_maxVersionInt overflowedLog_contiguous

theorem opsToInsert_replicate_aux (c : Nat) (n : Nat) :
    ∀ k V : Nat,
      ((List.replicate n c).enumFrom k).map (fun p => OpRow.mk (V + p.1 + 1) p.2) =
        (List.range' (V + k + 1) n).map (fun v => OpRow.mk v c) := by
  induction n with
  | zero => intro k V; rfl
  | succ m ih =>
    intro k V
    show OpRow.mk (V + k + 1) c ::
        ((List.replicate m c).enumFrom (k + 1)).map (fun p => OpRow.mk (V + p.1 + 1) p.2) =
      (List.range' (V + k + 1) (m + 1)).map (fun v => OpRow.mk v c)
    rw [List.range'_succ, List.map_cons, ih (k + 1) V]
    have hx : V + (k + 1) + 1 = V + k + 1 + 1 := by omega
    rw [hx]

theorem opsToInsert_replicate (c n V : Nat) :
    opsToInsert V (List.replicate n c) =
      (List.range' (V + 1) n).map (fun v => OpRow.mk v c) :=
  opsToInsert_replicate_aux c n 0 V

/-- The state after the first of the two submissions reaching overflowedLog:
the contiguous log 1..1000000. -/
def midLog : DocState :=
  { ops := (List.range' 1 1000000).map (fun v => OpRow.mk v 0),
    snapshotVersion := 1000000 }

theorem midLog_contiguous :
    midLog.ops.map (fun r => r.version_int) = List.range' 1 midLog.snapshotVersion :=
  map_mk_version 0 (List.range' 1 1000000)

theorem midLog_max : maxVersionInt midLog.ops = 1000000 :=
  contiguous_maxVersionInt midLog_contiguous

theorem applySubmits_nil (st : DocState) : applySubmits st [] = st := rfl

theorem applySubmits_cons (st : DocState) (b : Int) (ops : List Nat)
    (rest : List SubmitCall) :
    applySubmits st (({ baseVersion := b, ops := ops } : SubmitCall) :: rest) =
      applySubmits (submitOps st st b ops).2 rest := rfl

theorem replicate_million_ne_nil : (List.replicate 1000000 (0 : Nat)) ≠ [] := by
  intro hcon
  have hl := congrArg List.length hcon
  rw [List.length_replicate, List.length_nil] at hl
  exact absurd hl (by decide)

/-- The overflowed document is reachable from a fresh document by two
accepted submissions: a batch of 1,000,000 operations, then one more. -/
theorem overflowedLog_reachable :
    applySubmits initialDocState
      [{ baseVersion := 0, ops := List.replicate 1000000 0 },
       { baseVersion := 1000000, ops := [0] }] = overflowedLog := by
  have hb1 : ¬ ((clampVersion (maxVersionInt initialDocState.ops) : Nat) : Int) < 0 := by
    decide
  have hdup1 : (opsToInsert (clampVersion (maxVersionInt initialDocState.ops))
      (List.replicate 1000000 0)).any
        (fun r => initialDocState.ops.any (fun e => e.version_int == r.version_int)) = false :=
    dupCheck_false_of_le (fun e he => absurd he (List.not_mem_nil e))
  have step1 := submitOps_insert initialDocState initialDocState 0
    (List.replicate 1000000 0) hb1 replicate_million_ne_nil hdup1
  have hst1 : (submitOps initialDocState initialDocState 0 (List.replicate 1000000 0)).2 =
      midLog := by
    rw [step1]
    show ({ ops := initialDocState.ops ++ opsToInsert (clampVersion (maxVersionInt initialDocState.ops)) (List.replicate 1000000 0), snapshotVersion := clampVersion (maxVersionInt initialDocState.ops) + (List.replicate 1000000 (0 : Nat)).length } : DocState) = midLog
    have hcv : clampVersion (maxVersionInt initialDocState.ops) = 0 := rfl
    rw [hcv, opsToInsert_replicate, List.length_replicate]
    show ({ ops := [] ++ (List.range' (0 + 1) 1000000).map (fun v => OpRow.mk v 0), snapshotVersion := 0 + 1000000 } : DocState) = midLog
    rw [List.nil_append]
    rfl
  have hcv1 : clampVersion (maxVersionInt midLog.ops) = 1000000 := by
    rw [midLog_max]
    exact clampVersion_of_le (le_refl _)
  have hb2 : ¬ ((clampVersion (maxVersionInt midLog.ops) : Nat) : Int) < 1000000 := by
    rw [hcv1]
    decide
  have hle2 : ∀ e ∈ midLog.ops, e.version_int ≤ clampVersion (maxVersionInt midLog.ops) := by
    intro e he
    rw [hcv1, ← midLog_max]
    exact version_le_maxVersionInt he
  have hne2 : ([0] : List Nat) ≠ [] := by decide
  have hdup2 := @dupCheck_false_of_le _ _ [0] hle2
  have step2 := submitOps_insert midLog midLog 1000000 [0] hb2 hne2 hdup2
  rw [applySubmits_cons, hst1, applySubmits_cons, applySubmits_nil, step2]
  show ({ ops := midLog.ops ++ opsToInsert (clampVersion (maxVersionInt midLog.ops)) [0], snapshotVersion := clampVersion (maxVersionInt midLog.ops) + ([0] : List Nat).length } : DocState) = overflowedLog
  rw [hcv1]
  have hsingle : opsToInsert 1000000 [0] = [OpRow.mk 1000001 0] := rfl
  rw [hsingle]
  have hconcat : List.range' 1 1000001 = List.range' 1 1000000 ++ [1000001] :=
    List.range'_1_concat 1 1000000
  show ({ ops := midLog.ops ++ [OpRow.mk 1000001 0], snapshotVersion := 1000000 + ([0] : List Nat).length } : DocState) = ({ ops := (List.range' 1 1000001).map (fun v => OpRow.mk v 0), snapshotVersion := 1000001 } : DocState)
  show ({ ops := (List.range' 1 1000000).map (fun v => OpRow.mk v 0) ++ [OpRow.mk 1000001 0], snapshotVersion := 1000000 + ([0] : List Nat).length } : DocState) = ({ ops := (List.range' 1 1000001).map (fun v => OpRow.mk v 0), snapshotVersion := 1000001 } : DocState)
  rw [hconcat, List.map_append]
  rfl

theorem submitSeq_some (st : DocState) (b : Int) (ops : List Nat) :
    submitSeq (some st) b ops =
      ((submitOps st st b ops).1, some (submitOps st st b ops).2) := rfl

/-! ## Claims about the submission coordinator -/

/-- C2 (amended): a non-empty batch submitted against an existing document
with baseVersion at most the current max committed version is accepted,
assigning the consecutive versions V+1..V+len, bumping the snapshot to
V+len and returning newVersion = V+len and appliedCount = len — provided
the current max committed version is at most 1,000,000 (beyond the
handler's clamp the derived version resets to 0 and this breaks). -/
theorem c2_accept_behind_base (st : DocState) (b : Int) (ops : List Nat)
    (hne : ops ≠ [])
    (hb : b ≤ (maxVersionInt st.ops : Int))
    (hsmall : maxVersionInt st.ops ≤ 1000000) :
    submitSeq (some st) b ops =
      (SubmitResult.ok (maxVersionInt st.ops + ops.length) ops.length,
        some { ops := st.ops ++ opsToInsert (maxVersionInt st.ops) ops,
               snapshotVersion := maxVersionInt st.ops + ops.length }) ∧
    (opsToInsert (maxVersionInt st.ops) ops).map (fun r => r.version_int) =
      List.range' (maxVersionInt st.ops + 1) ops.length := by
  have hcv : clampVersion (maxVersionInt st.ops) = maxVersionInt st.ops :=
    clampVersion_of_le hsmall
  have hb' : ¬ ((clampVersion (maxVersionInt st.ops) : Nat) : Int) < b := by
    rw [hcv]
    exact not_lt.mpr hb
  have hle : ∀ e ∈ st.ops, e.version_int ≤ clampVersion (maxVersionInt st.ops) := by
    intro e he
    rw [hcv]
    exact version_le_maxVersionInt he
  have hdup := @dupCheck_false_of_le _ _ ops hle
  constructor
  · show ((submitOps st st b ops).1, some (submitOps st st b ops).2) = _
    rw [submitOps_insert st st b ops hb' hne hdup, hcv]
  · exact opsToInsert_map_version _ ops

theorem c2_accept_behind_base_witness :
    submitSeq (some initialDocState) 0 [7] =
      (SubmitResult.ok (maxVersionInt initialDocState.ops + [7].length) [7].length,
        some { ops := initialDocState.ops ++
                 opsToInsert (maxVersionInt initialDocState.ops) [7],
               snapshotVersion := maxVersionInt initialDocState.ops + [7].length }) :=
  (c2_accept_behind_base initialDocState 0 [7] (by decide) (by decide) (by decide)).1

/-- C2 counterexample: overflowedLog is reachable by successful submissions
(overflowedLog_reachable) and has max committed version 1000001; submitting
the one-operation batch [9] with baseVersion 0 (which is at most the
current version, so the claim demands acceptance with newVersion 1000002)
instead produces a VERSION_CONFLICT response, because the clamped derived
version 0 makes the insert target the already-taken version 1. -/
theorem c2_accept_behind_base_counterexample :
    (submitSeq (some overflowedLog) 0 [9]).1 =
      SubmitResult.versionConflict 1000001 0 ∧
    maxVersionInt overflowedLog.ops = 1000001 := by
  have hcv : clampVersion (maxVersionInt overflowedLog.ops) = 0 := by
    rw [overflowedLog_max]
    exact clampVersion_of_gt (by decide)
  have hb : ¬ ((clampVersion (maxVersionInt overflowedLog.ops) : Nat) : Int) < 0 := by
    rw [hcv]
    decide
  have hmem : ∃ e ∈ overflowedLog.ops, e.version_int = 0 + 1 := by
    have h1 := contiguous_mem_one overflowedLog_contiguous (by rw [show overflowedLog.snapshotVersion = 1000001 from rfl]; omega)
    simpa using h1
  have hdup := @dupCheck_true_of_mem _ 0 [9] (by decide) hmem
  have hstep := submitOps_dup overflowedLog overflowedLog 0 [9] hb (by decide)
    (by rw [hcv]; exact hdup)
  refine ⟨?_, overflowedLog_max⟩
  rw [submitSeq_some, hstep, overflowedLog_max]

/-- C3 (amended): a submission whose baseVersion exceeds the current max
committed version always fails with VERSION_CONFLICT and leaves the store
unchanged; the reported server version is the clamped derived version,
which equals the true max committed version whenever that is at most
1,000,000 (and is 0 beyond the clamp). -/
theorem c3_ahead_base_conflict (st : DocState) (b : Int) (ops : List Nat)
    (h : (maxVersionInt st.ops : Int) < b) :
    submitSeq (some st) b ops =
      (SubmitResult.versionConflict (clampVersion (maxVersionInt st.ops)) b, some st) ∧
    (maxVersionInt st.ops ≤ 1000000 →
      clampVersion (maxVersionInt st.ops) = maxVersionInt st.ops) := by
  have hcast : ((clampVersion (maxVersionInt st.ops) : Nat) : Int) ≤
      ((maxVersionInt st.ops : Nat) : Int) := by
    exact_mod_cast clampVersion_le (maxVersionInt st.ops)
  have hb : ((clampVersion (maxVersionInt st.ops) : Nat) : Int) < b :=
    lt_of_le_of_lt hcast h
  constructor
  · show ((submitOps st st b ops).1, some (submitOps st st b ops).2) = _
    rw [submitOps_conflict_ahead st st b ops hb]
  · exact fun hs => clampVersion_of_le hs

theorem c3_ahead_base_conflict_witness :
    submitSeq (some initialDocState) 1 [5] =
      (SubmitResult.versionConflict (clampVersion (maxVersionInt initialDocState.ops)) 1,
        some initialDocState) :=
  (c3_ahead_base_conflict initialDocState 1 [5] (by decide)).1

/-- C3 counterexample: on the reachable overflowedLog document (max
committed version 1000001), submitting with baseVersion 1000002 — strictly
ahead of the true version — yields VERSION_CONFLICT whose reported
serverVersion is 0, not the document's max committed version 1000001,
because the handler clamps the derived version before reporting it. -/
theorem c3_ahead_base_conflict_counterexample :
    (submitSeq (some overflowedLog) 1000002 [5]).1 =
      SubmitResult.versionConflict 0 1000002 ∧
    maxVersionInt overflowedLog.ops = 1000001 := by
  have hcv : clampVersion (maxVersionInt overflowedLog.ops) = 0 := by
    rw [overflowedLog_max]
    exact clampVersion_of_gt (by decide)
  have hb : ((clampVersion (maxVersionInt overflowedLog.ops) : Nat) : Int) < 1000002 := by
    rw [hcv]
    decide
  refine ⟨?_, overflowedLog_max⟩
  rw [submitSeq_some, submitOps_conflict_ahead overflowedLog overflowedLog 1000002 [5] hb, hcv]

/-- C9 (amended): on an existing document, an empty operation batch whose
baseVersion is at most the server-derived (clamped) current version is a
no-op success: it returns that derived current version with
appliedCount = 0 and writes no operation row and no snapshot update. The
conflict check precedes the empty-batch check, so baseVersion still
matters even for an empty batch. -/
theorem c9_empty_batch_noop (st : DocState) (b : Int)
    (hb : b ≤ ((clampVersion (maxVersionInt st.ops) : Nat) : Int)) :
    submitSeq (some st) b [] =
      (SubmitResult.ok (clampVersion (maxVersionInt st.ops)) 0, some st) := by
  rw [submitSeq_some, submitOps_empty st st b (not_lt.mpr hb)]

theorem c9_empty_batch_noop_witness :
    submitSeq (some initialDocState) 0 [] =
      (SubmitResult.ok (clampVersion (maxVersionInt initialDocState.ops)) 0,
        some initialDocState) :=
  c9_empty_batch_noop initialDocState 0 (by decide)

/-- C9 counterexample: on a fresh existing document (current version 0), an
empty batch submitted with baseVersion 1 is not a no-op success as the
claim demands: the handler's version-conflict check runs before its
empty-batch check, so the call fails with VERSION_CONFLICT. -/
theorem c9_empty_batch_noop_counterexample :
    (submitSeq (some initialDocState) 1 []).1 = SubmitResult.versionConflict 0 1 := by
  decide

/-- C4: when the atomic multi-row insert of a non-empty accepted batch hits
the (project_id, version_int) uniqueness violation because a racing
submission committed between the coordinator's max-version read (seen
state stRead) and its insert (actual state stInsert), the handler catches
the duplicate-key error once, re-reads the true (unclamped) high-water
mark of the store, fails the request with VERSION_CONFLICT reporting that
re-read version, and writes nothing: the store is exactly the raced state
stInsert, with no partial batch. -/
theorem c4_duplicate_key_caught (stRead stInsert : DocState) (b : Int) (ops : List Nat)
    (hb : b ≤ ((clampVersion (maxVersionInt stRead.ops) : Nat) : Int))
    (hne : ops ≠ [])
    (hdup : (opsToInsert (clampVersion (maxVersionInt stRead.ops)) ops).any
        (fun r => stInsert.ops.any (fun e => e.version_int == r.version_int)) = true) :
    submitOps stRead stInsert b ops =
      (SubmitResult.versionConflict (maxVersionInt stInsert.ops) b, stInsert) :=
  submitOps_dup stRead stInsert b ops (not_lt.mpr hb) hne hdup

theorem c4_duplicate_key_caught_witness :
    submitOps initialDocState { ops := [OpRow.mk 1 5], snapshotVersion := 1 } 0 [7] =
      (SubmitResult.versionConflict
        (maxVersionInt ({ ops := [OpRow.mk 1 5], snapshotVersion := 1 } : DocState).ops) 0,
        { ops := [OpRow.mk 1 5], snapshotVersion := 1 }) :=
  c4_duplicate_key_caught initialDocState { ops := [OpRow.mk 1 5], snapshotVersion := 1 }
    0 [7] (by decide) (by decide) (by decide)

/-- C10: the handler replaces the max-derived current version by 0 whenever
it exceeds 1,000,000, so on any document whose log is past that bound the
batch is assigned the version numbers 1..len instead of continuing from
the true high-water mark: version assignment is not monotonic beyond the
bound. -/
theorem c10_clamp_resets_versions (st : DocState) (ops : List Nat)
    (h : 1000000 < maxVersionInt st.ops) :
    clampVersion (maxVersionInt st.ops) = 0 ∧
    (opsToInsert (clampVersion (maxVersionInt st.ops)) ops).map (fun r => r.version_int) =
      List.range' 1 ops.length := by
  have h0 := clampVersion_of_gt h
  refine ⟨h0, ?_⟩
  rw [h0]
  have hm := opsToInsert_map_version 0 ops
  simpa using hm

theorem c10_clamp_resets_versions_witness :
    clampVersion (maxVersionInt ({ ops := [OpRow.mk 1000001 0], snapshotVersion := 1000001 } : DocState).ops) = 0 ∧
    (opsToInsert (clampVersion (maxVersionInt ({ ops := [OpRow.mk 1000001 0], snapshotVersion := 1000001 } : DocState).ops)) [42]).map (fun r => r.version_int) =
      List.range' 1 [42].length :=
  c10_clamp_resets_versions { ops := [OpRow.mk 1000001 0], snapshotVersion := 1000001 }
    [42] (by decide)

/-! ## Presence registry (socketHandlers.ts)

serverOnlineUsers is a process-wide JS Map from serverId to a Map from
userId to a connection count. JS Maps keyed by primitives are modelled as
association lists with the first matching key authoritative; Map.set
updates in place or appends, Map.delete removes the key, Map.get misses
give undefined (Option.none).
-/

def mapGet {κ β : Type} [DecidableEq κ] (k : κ) : List (κ × β) → Option β
  | [] => none
  | p :: rest => if p.1 = k then some p.2 else mapGet k rest

def mapSet {κ β : Type} [DecidableEq κ] (k : κ) (v : β) : List (κ × β) → List (κ × β)
  | [] => [(k, v)]
  | p :: rest => if p.1 = k then (k, v) :: rest else p :: mapSet k v rest

def mapDelete {κ β : Type} [DecidableEq κ] (k : κ) : List (κ × β) → List (κ × β)
  | [] => []
  | p :: rest => if p.1 = k then mapDelete k rest else p :: mapDelete k rest

/-- The per-server Map of userId to connection count. -/
abbrev ServerMap := List (String × Nat)

/-- The process-wide serverOnlineUsers Map. -/
abbrev Registry := List (Nat × ServerMap)

/-- The auth handler's presence bookkeeping (socketHandlers.ts lines
92-107): fetch or create the server's map, increment the user's count, and
emit the user:online broadcast exactly when the previous count was 0. The
returned Bool is whether the broadcast fired. -/
def presenceConnect (reg : Registry) (serverId : Nat) (userId : String) :
    Bool × Registry :=
  let serverMap := (mapGet serverId reg).getD []
  let prevCount := (mapGet userId serverMap).getD 0
  let serverMap' := mapSet userId (prevCount + 1) serverMap
  (prevCount == 0, mapSet serverId serverMap' reg)

/-- The disconnect handler's presence bookkeeping (socketHandlers.ts lines
299-318): if the server has no map the block is skipped; otherwise the
user's count is decremented with a floor of 0, the entry is deleted and
user:offline emitted when the result is 0, and the server's map is dropped
when it became empty. The returned Bool is whether user:offline fired. -/
def presenceDisconnect (reg : Registry) (serverId : Nat) (userId : String) :
    Bool × Registry :=
  match mapGet serverId reg with
  | none => (false, reg)
  | some onlineUsers =>
    let prevCount := (mapGet userId onlineUsers).getD 0
    let nextCount := prevCount - 1
    if nextCount = 0 then
      let m' := mapDelete userId onlineUsers
      let reg' := mapSet serverId m' reg
      (true, if m'.isEmpty then mapDelete serverId reg' else reg')
    else
      let m' := mapSet userId nextCount onlineUsers
      let reg' := mapSet serverId m' reg
      (false, if m'.isEmpty then mapDelete serverId reg' else reg')

/-- getOnlineUsersForServer (socketHandlers.ts lines 325-328): the keys of
the server's map, empty when the server has no map. -/
def getOnlineUsersForServer (reg : Registry) (serverId : Nat) : List String :=
  ((mapGet serverId reg).getD []).map (fun p => p.1)

/-- The connection count the registry stores for a pair, 0 when absent. -/
def connCount (reg : Registry) (serverId : Nat) (userId : String) : Nat :=
  (mapGet userId ((mapGet serverId reg).getD [])).getD 0

/-! ## Association list lemmas -/

theorem mapGet_mapSet_self {κ β : Type} [DecidableEq κ] (k : κ) (v : β)
    (m : List (κ × β)) : mapGet k (mapSet k v m) = some v := by
  induction m with
  | nil => simp [mapGet, mapSet]
  | cons p rest ih =>
    by_cases hp : p.1 = k
    · simp [mapGet, mapSet, hp]
    · simp [mapGet, mapSet, hp, ih]

theorem mapGet_mapDelete_self {κ β : Type} [DecidableEq κ] (k : κ)
    (m : List (κ × β)) : mapGet k (mapDelete k m) = none := by
  induction m with
  | nil => rfl
  | cons p rest ih =>
    by_cases hp : p.1 = k
    · simp [mapDelete, hp, ih]
    · simp [mapDelete, mapGet, hp, ih]

theorem mapSet_isEmpty {κ β : Type} [DecidableEq κ] (k : κ) (v : β)
    (m : List (κ × β)) : (mapSet k v m).isEmpty = false := by
  cases m with
  | nil => rfl
  | cons p rest =>
    unfold mapSet
    split <;> rfl

theorem mem_mapSet {κ β : Type} [DecidableEq κ] {k : κ} {v : β}
    {m : List (κ × β)} {x : κ × β} (hx : x ∈ mapSet k v m) : x ∈ m ∨ x = (k, v) := by
  induction m with
  | nil => simpa [mapSet] using hx
  | cons p rest ih =>
    unfold mapSet at hx
    by_cases hp : p.1 = k
    · rw [if_pos hp] at hx
      rcases List.mem_cons.mp hx with h | h
      · exact Or.inr h
      · exact Or.inl (List.mem_cons_of_mem p h)
    · rw [if_neg hp] at hx
      rcases List.mem_cons.mp hx with h | h
      · exact Or.inl (h ▸ List.mem_cons_self p rest)
      · rcases ih h with h' | h'
        · exact Or.inl (List.mem_cons_of_mem p h')
        · exact Or.inr h'

theorem mem_mapDelete {κ β : Type} [DecidableEq κ] {k : κ}
    {m : List (κ × β)} {x : κ × β} (hx : x ∈ mapDelete k m) : x ∈ m := by
  induction m with
  | nil => exact absurd hx (List.not_mem_nil x)
  | cons p rest ih =>
    unfold mapDelete at hx
    by_cases hp : p.1 = k
    · rw [if_pos hp] at hx
      exact List.mem_cons_of_mem p (ih hx)
    · rw [if_neg hp] at hx
      rcases List.mem_cons.mp hx with h | h
      · exact h ▸ List.mem_cons_self p rest
      · exact List.mem_cons_of_mem p (ih h)

theorem mapGet_mem {κ β : Type} [DecidableEq κ] {k : κ} {v : β}
    {m : List (κ × β)} (h : mapGet k m = some v) : (k, v) ∈ m := by
  induction m with
  | nil => simp [mapGet] at h
  | cons p rest ih =>
    unfold mapGet at h
    by_cases hp : p.1 = k
    · rw [if_pos hp] at h
      have hv : p.2 = v := by injection h
      have hpair : p = (k, v) := Prod.ext hp hv
      exact hpair ▸ List.mem_cons_self p rest
    · rw [if_neg hp] at h
      exact List.mem_cons_of_mem p (ih h)

theorem mem_keys_iff {κ β : Type} [DecidableEq κ] (u : κ) (m : List (κ × β)) :
    u ∈ m.map (fun p => p.1) ↔ (mapGet u m).isSome = true := by
  induction m with
  | nil => simp [mapGet]
  | cons p rest ih =>
    by_cases hp : p.1 = u
    · simp [mapGet, hp]
    · simp [mapGet, hp, ih, Ne.symm hp]

/-! ## Claims about the presence registry -/

theorem presenceConnect_fst (reg : Registry) (serverId : Nat) (userId : String) :
    (presenceConnect reg serverId userId).1 = (connCount reg serverId userId == 0) := rfl

theorem presenceConnect_snd (reg : Registry) (serverId : Nat) (userId : String) :
    (presenceConnect reg serverId userId).2 =
      mapSet serverId
        (mapSet userId (connCount reg serverId userId + 1)
          ((mapGet serverId reg).getD [])) reg := rfl

theorem connCount_mapSet_self (reg : Registry) (serverId : Nat) (userId : String)
    (m : ServerMap) :
    connCount (mapSet serverId m reg) serverId userId = (mapGet userId m).getD 0 := by
  unfold connCount
  rw [mapGet_mapSet_self]
  rfl

/-- C5: presenceConnect increments the pair's connection count (creating
the entry at 1 when absent), fires the user:online broadcast exactly when
the count was 0 before the call, and therefore a second consecutive
connect for the same pair does not fire it. -/
theorem c5_connect_transition (reg : Registry) (serverId : Nat) (userId : String) :
    connCount (presenceConnect reg serverId userId).2 serverId userId =
      connCount reg serverId userId + 1 ∧
    ((presenceConnect reg serverId userId).1 = true ↔
      connCount reg serverId userId = 0) ∧
    (presenceConnect (presenceConnect reg serverId userId).2 serverId userId).1 = false := by
  have hcount : connCount (presenceConnect reg serverId userId).2 serverId userId =
      connCount reg serverId userId + 1 := by
    rw [presenceConnect_snd, connCount_mapSet_self, mapGet_mapSet_self]
    rfl
  refine ⟨hcount, ?_, ?_⟩
  · rw [presenceConnect_fst]
    simp
  · rw [presenceConnect_fst, hcount]
    simp

theorem connCount_of_mapGet_none {reg : Registry} {serverId : Nat}
    (userId : String) (hm : mapGet serverId reg = none) :
    connCount reg serverId userId = 0 := by
  unfold connCount
  rw [hm]
  rfl

theorem connCount_of_mapGet_some {reg : Registry} {serverId : Nat} {m : ServerMap}
    (userId : String) (hm : mapGet serverId reg = some m) :
    connCount reg serverId userId = (mapGet userId m).getD 0 := by
  unfold connCount
  rw [hm]
  rfl

/-- C6 (amended): presenceDisconnect lowers the stored connection count by
one (with floor 0) and never raises an error; when the server has no map
at all the call leaves the registry untouched and fires no broadcast; but
the user:offline broadcast fires exactly when the server map exists and
the pair's stored count is at most 1 — in particular a disconnect for a
pair with no entry still fires user:offline whenever the server map is
kept alive by some other user's entry, rather than being the silent no-op
the claim describes. -/
theorem c6_disconnect_transition (reg : Registry) (serverId : Nat) (userId : String) :
    connCount (presenceDisconnect reg serverId userId).2 serverId userId =
      connCount reg serverId userId - 1 ∧
    ((presenceDisconnect reg serverId userId).1 = true ↔
      (mapGet serverId reg).isSome = true ∧ connCount reg serverId userId ≤ 1) ∧
    (mapGet serverId reg = none → (presenceDisconnect reg serverId userId).2 = reg) := by
  cases hm : mapGet serverId reg with
  | none =>
    have hd : presenceDisconnect reg serverId userId = (false, reg) := by
      unfold presenceDisconnect
      rw [hm]
    have hc := connCount_of_mapGet_none userId hm
    rw [hd, hc]
    refine ⟨rfl, ?_, fun _ => rfl⟩
    simp [hm]
  | some m =>
    have hc := connCount_of_mapGet_some userId hm
    have hbody : presenceDisconnect reg serverId userId =
        (if (mapGet userId m).getD 0 - 1 = 0 then ((true : Bool), if (mapDelete userId m).isEmpty then mapDelete serverId (mapSet serverId (mapDelete userId m) reg) else mapSet serverId (mapDelete userId m) reg) else ((false : Bool), if (mapSet userId ((mapGet userId m).getD 0 - 1) m).isEmpty then mapDelete serverId (mapSet serverId (mapSet userId ((mapGet userId m).getD 0 - 1) m) reg) else mapSet serverId (mapSet userId ((mapGet userId m).getD 0 - 1) m) reg)) := by
      unfold presenceDisconnect
      rw [hm]
    by_cases h0 : (mapGet userId m).getD 0 - 1 = 0
    · have hcount0 : connCount (presenceDisconnect reg serverId userId).2 serverId userId = 0 := by
        rw [hbody, if_pos h0]
        by_cases hemp : (mapDelete userId m).isEmpty = true
        · rw [if_pos hemp]
          show connCount (mapDelete serverId (mapSet serverId (mapDelete userId m) reg)) serverId userId = 0
          unfold connCount
          rw [mapGet_mapDelete_self]
          rfl
        · rw [if_neg hemp]
          show connCount (mapSet serverId (mapDelete userId m) reg) serverId userId = 0
          rw [connCount_mapSet_self, mapGet_mapDelete_self]
          rfl
      refine ⟨?_, ?_, ?_⟩
      · rw [hcount0, hc]
        omega
      · rw [hbody, if_pos h0]
        constructor
        · intro _
          refine ⟨rfl, ?_⟩
          rw [hc]
          omega
        · intro _
          rfl
      · intro hnone
        exact Option.noConfusion hnone
    · have hne : ¬ (mapSet userId ((mapGet userId m).getD 0 - 1) m).isEmpty = true := by
        rw [mapSet_isEmpty]
        exact Bool.false_ne_true
      refine ⟨?_, ?_, ?_⟩
      · rw [hbody, if_neg h0, if_neg hne]
        show connCount (mapSet serverId (mapSet userId ((mapGet userId m).getD 0 - 1) m) reg) serverId userId = connCount reg serverId userId - 1
        rw [connCount_mapSet_self, mapGet_mapSet_self, hc]
        rfl
      · rw [hbody, if_neg h0]
        constructor
        · intro habs
          exact absurd habs Bool.false_ne_true
        · intro hand
          rw [hc] at hand
          omega
      · intro hnone
        exact Option.noConfusion hnone

theorem c6_disconnect_transition_witness :
    connCount (presenceDisconnect [] 1 "a").2 1 "a" = connCount [] 1 "a" - 1 ∧
    ((presenceDisconnect [] 1 "a").1 = true ↔
      (mapGet 1 ([] : Registry)).isSome = true ∧ connCount [] 1 "a" ≤ 1) ∧
    (mapGet 1 ([] : Registry) = none → (presenceDisconnect [] 1 "a").2 = []) :=
  c6_disconnect_transition [] 1 "a"

/-- The registry after connect(1,a), connect(1,b), disconnect(1,a): user a
has no entry any more, but server 1 still has a map because b is online. -/
def ghostPairRegistry : Registry :=
  (presenceDisconnect (presenceConnect (presenceConnect [] 1 "a").2 1 "b").2 1 "a").2

/-- C6 counterexample: in ghostPairRegistry the pair (1, a) has no entry,
so by the claim a further disconnect for it must be a no-op signalling no
transition; the code nevertheless reports an offline transition (it emits
user:offline), because the disconnect handler treats a missing entry in a
live server map as count 0 and 0 - 1 floors to 0. -/
theorem c6_disconnect_transition_counterexample :
    mapGet "a" ((mapGet 1 ghostPairRegistry).getD []) = none ∧
    (presenceDisconnect ghostPairRegistry 1 "a").1 = true := by
  decide

/-! ## Claim C7: the registry never stores a zero count -/

/-- The two registry-mutating connection-lifecycle events. -/
inductive PresenceEvent where
  | connect (serverId : Nat) (userId : String)
  | disconnect (serverId : Nat) (userId : String)
deriving DecidableEq, Repr

/-- Run a sequence of connection-lifecycle events against the registry. -/
def applyPresence (reg : Registry) : List PresenceEvent → Registry
  | [] => reg
  | PresenceEvent.connect s u :: rest => applyPresence (presenceConnect reg s u).2 rest
  | PresenceEvent.disconnect s u :: rest => applyPresence (presenceDisconnect reg s u).2 rest

/-- No entry of the registry stores a connection count of 0. -/
def NoZeroCounts (reg : Registry) : Prop :=
  ∀ rm ∈ reg, ∀ pc ∈ rm.2, 1 ≤ pc.2

theorem presenceConnect_preserves_noZero {reg : Registry} (serverId : Nat) (userId : String)
    (h : NoZeroCounts reg) : NoZeroCounts (presenceConnect reg serverId userId).2 := by
  rw [presenceConnect_snd]
  intro rm hrm pc hpc
  rcases mem_mapSet hrm with hold | heq
  · exact h rm hold pc hpc
  · subst heq
    rcases mem_mapSet hpc with hold2 | heq2
    · cases hmg : mapGet serverId reg with
      | none =>
        rw [hmg] at hold2
        exact absurd hold2 (List.not_mem_nil pc)
      | some m0 =>
        rw [hmg] at hold2
        exact h (serverId, m0) (mapGet_mem hmg) pc hold2
    · subst heq2
      exact Nat.succ_le_succ (Nat.zero_le _)

theorem presenceDisconnect_preserves_noZero {reg : Registry} (serverId : Nat)
    (userId : String) (h : NoZeroCounts reg) :
    NoZeroCounts (presenceDisconnect reg serverId userId).2 := by
  cases hm : mapGet serverId reg with
  | none =>
    have hd : presenceDisconnect reg serverId userId = (false, reg) := by
      unfold presenceDisconnect
      rw [hm]
    rw [hd]
    exact h
  | some m =>
    have hmem0 : ∀ pc ∈ m, 1 ≤ pc.2 := h (serverId, m) (mapGet_mem hm)
    have hbody : presenceDisconnect reg serverId userId =
        (if (mapGet userId m).getD 0 - 1 = 0 then ((true : Bool), if (mapDelete userId m).isEmpty then mapDelete serverId (mapSet serverId (mapDelete userId m) reg) else mapSet serverId (mapDelete userId m) reg) else ((false : Bool), if (mapSet userId ((mapGet userId m).getD 0 - 1) m).isEmpty then mapDelete serverId (mapSet serverId (mapSet userId ((mapGet userId m).getD 0 - 1) m) reg) else mapSet serverId (mapSet userId ((mapGet userId m).getD 0 - 1) m) reg)) := by
      unfold presenceDisconnect
      rw [hm]
    rw [hbody]
    by_cases h0 : (mapGet userId m).getD 0 - 1 = 0
    · rw [if_pos h0]
      have hsetOk : NoZeroCounts (mapSet serverId (mapDelete userId m) reg) := by
        intro rm hrm pc hpc
        rcases mem_mapSet hrm with hold | heq
        · exact h rm hold pc hpc
        · subst heq
          exact hmem0 pc (mem_mapDelete hpc)
      by_cases hemp : (mapDelete userId m).isEmpty = true
      · rw [if_pos hemp]
        intro rm hrm pc hpc
        exact hsetOk rm (mem_mapDelete hrm) pc hpc
      · rw [if_neg hemp]
        exact hsetOk
    · rw [if_neg h0]
      have hne : ¬ (mapSet userId ((mapGet userId m).getD 0 - 1) m).isEmpty = true := by
        rw [mapSet_isEmpty]
        exact Bool.false_ne_true
      rw [if_neg hne]
      intro rm hrm pc hpc
      rcases mem_mapSet hrm with hold | heq
      · exact h rm hold pc hpc
      · subst heq
        rcases mem_mapSet hpc with hold2 | heq2
        · exact hmem0 pc hold2
        · subst heq2
          omega

theorem applyPresence_preserves_noZero (events : List PresenceEvent) :
    ∀ reg : Registry, NoZeroCounts reg → NoZeroCounts (applyPresence reg events) := by
  induction events with
  | nil => intro reg h; exact h
  | cons e rest ih =>
    intro reg h
    cases e with
    | connect s u => exact ih _ (presenceConnect_preserves_noZero s u h)
    | disconnect s u => exact ih _ (presenceDisconnect_preserves_noZero s u h)

/-- C7: after any sequence of connect and disconnect events starting from
the empty registry, no stored entry has connection count 0 (a count of 0
implies the entry is absent), and a participant appears in the
getOnlineUsersForServer listing of a room exactly when an entry exists
for that (room, participant) pair. -/
theorem c7_no_zero_entries (events : List PresenceEvent) :
    (∀ rm ∈ applyPresence [] events, ∀ pc ∈ rm.2, 1 ≤ pc.2) ∧
    (∀ (serverId : Nat) (userId : String),
      userId ∈ getOnlineUsersForServer (applyPresence [] events) serverId ↔
        (mapGet userId ((mapGet serverId (applyPresence [] events)).getD [])).isSome = true) := by
  constructor
  · exact applyPresence_preserves_noZero events []
      (fun rm hrm => absurd hrm (List.not_mem_nil rm))
  · intro serverId userId
    exact mem_keys_iff userId ((mapGet serverId (applyPresence [] events)).getD [])

theorem c7_no_zero_entries_witness :
    1 ≤ (("a", 1) : String × Nat).2 :=
  (c7_no_zero_entries [PresenceEvent.connect 1 "a"]).1 (1, [("a", 1)]) (by decide)
    ("a", 1) (by decide)

/-! ## Voice sessions (socketHandlers.ts voice:join / voice:leave)

voice_sessions rows carry (channel_id, user_id, joined_at, left_at), with
left_at NULL while the session is open. Timestamps are modelled as Nat.
-/

/-- One row of the voice_sessions table. -/
structure VoiceSession where
  channel_id : Nat
  user_id : String
  joined_at : Nat
  left_at : Option Nat
deriving DecidableEq, Repr

/-- voice:join (socketHandlers.ts lines 203-210): unconditionally insert a
new open session row; an existing open row for the same pair is not
checked for, so duplicates can accumulate. -/
def voiceJoin (sessions : List VoiceSession) (channelId : Nat) (userId : String)
    (now : Nat) : List VoiceSession :=
  sessions ++
    [{ channel_id := channelId, user_id := userId, joined_at := now, left_at := none }]

/-- voice:leave (socketHandlers.ts lines 253-258): stamp left_at = now on
every open row of the (channelId, userId) pair (the UPDATE is scoped by
user_id, channel_id and left_at IS NULL, so it closes all open rows of
the pair at once). -/
def voiceLeave (sessions : List VoiceSession) (channelId : Nat) (userId : String)
    (now : Nat) : List VoiceSession :=
  sessions.map (fun s =>
    if s.user_id = userId ∧ s.channel_id = channelId ∧ s.left_at = none then
      { s with left_at := some now }
    else s)

/-- The roster query (socketHandlers.ts lines 213-221 / 261-269): the
user_id of every session row of the channel whose left_at is unset. -/
def voiceRoster (sessions : List VoiceSession) (channelId : Nat) : List String :=
  (sessions.filter (fun s => decide (s.channel_id = channelId ∧ s.left_at = none))).map
    (fun s => s.user_id)

theorem voiceLeave_closes_pair (sessions : List VoiceSession) (channelId : Nat)
    (userId : String) (now : Nat) :
    ∀ s ∈ voiceLeave sessions channelId userId now,
      s.user_id = userId → s.channel_id = channelId → s.left_at ≠ none := by
  intro s hs hu hch hnone
  obtain ⟨s0, _, hf⟩ := List.mem_map.mp hs
  by_cases hcond : s0.user_id = userId ∧ s0.channel_id = channelId ∧ s0.left_at = none
  · rw [if_pos hcond] at hf
    rw [← hf] at hnone
    exact Option.noConfusion hnone
  · rw [if_neg hcond] at hf
    subst hf
    exact hcond ⟨hu, hch, hnone⟩

theorem notMem_roster_after_leave (sessions : List VoiceSession) (channelId : Nat)
    (userId : String) (now : Nat) :
    userId ∉ voiceRoster (voiceLeave sessions channelId userId now) channelId := by
  intro hmem
  obtain ⟨s, hsf, hsu⟩ := List.mem_map.mp hmem
  have hsp := List.mem_filter.mp hsf
  have hcond := of_decide_eq_true hsp.2
  exact voiceLeave_closes_pair sessions channelId userId now s hsp.1 hsu hcond.1 hcond.2

/-- C8: if a participant joins a voice channel twice without leaving, so
two open session rows exist for the pair, a single leave stamps left_at on
every open row of the pair, and the roster computed afterward (the
participants of the channel's rows with left_at unset) no longer contains
the participant. -/
theorem c8_double_join_single_leave (sessions : List VoiceSession) (channelId : Nat)
    (userId : String) (t1 t2 t3 : Nat) :
    (∀ s ∈ voiceLeave (voiceJoin (voiceJoin sessions channelId userId t1)
        channelId userId t2) channelId userId t3,
      s.user_id = userId → s.channel_id = channelId → s.left_at ≠ none) ∧
    userId ∉ voiceRoster (voiceLeave (voiceJoin (voiceJoin sessions channelId userId t1)
        channelId userId t2) channelId userId t3) channelId := by
  constructor
  · exact voiceLeave_closes_pair _ channelId userId t3
  · exact notMem_roster_after_leave _ channelId userId t3

theorem c8_double_join_single_leave_witness :
    "x" ∉ voiceRoster (voiceLeave (voiceJoin (voiceJoin [] 1 "x" 0) 1 "x" 1) 1 "x" 2) 1 :=
  (c8_double_join_single_leave [] 1 "x" 0 1 2).2
